import Mathlib

/-!
Shallow embedding of `update_checker.py` (skontar/update-checker).

The program shells out to `dnf updateinfo list updates`, parses its stdout
into a category → package-name map, and drives a tray icon / notification
state machine from the counts.  External effects (process spawning, GTK)
are modelled by explicit parameters and effect lists; the pure parsing and
decision logic is translated line by line from the source.

Python exceptions are modelled by `Option`: a function that can raise
returns `none` where the Python raises (`ValueError` from tuple unpacking,
`KeyError` from an unknown dict key).
-/

set_option autoImplicit false

namespace UpdateChecker

/-! ### Python string primitives, char-level

`pyStrIn pat s` models Python `pat in s` (substring occurrence).
`pysplitChars` models `str.split()` (split on whitespace runs, no empties).
`splitDash` models `str.split('-')` (keeps empty fields).
`joinDash` models `'-'.join`. -/

/-- Does `s` start with `pat`?  (Helper for substring occurrence.) -/
def leadsWith : List Char → List Char → Bool
  | [], _ => true
  | _ :: _, [] => false
  | p :: ps, c :: cs => p == c && leadsWith ps cs

/-- Does `pat` occur anywhere inside `s`?  Models Python `pat in s`. -/
def occursIn (pat : List Char) : List Char → Bool
  | [] => leadsWith pat []
  | c :: cs => leadsWith pat (c :: cs) || occursIn pat cs

/-- Models Python `pat in s` on `String`s. -/
def pyStrIn (pat s : String) : Bool :=
  occursIn pat.toList s.toList

/-- Accumulator worker for `str.split()`: `word` is the current token,
reversed. -/
def pysplitGo (word : List Char) : List Char → List (List Char)
  | [] => if word.isEmpty then [] else [word.reverse]
  | c :: cs =>
    if c.isWhitespace then
      if word.isEmpty then pysplitGo [] cs
      else word.reverse :: pysplitGo [] cs
    else pysplitGo (c :: word) cs

/-- Models Python `line.split()`: whitespace-separated tokens, no empties. -/
def pysplit (s : String) : List String :=
  (pysplitGo [] s.toList).map fun w => String.mk w

/-- Accumulator worker for `str.split('-')`: `word` is the current field,
reversed. -/
def splitDashGo (word : List Char) : List Char → List (List Char)
  | [] => [word.reverse]
  | c :: cs =>
    if c == '-' then word.reverse :: splitDashGo [] cs
    else splitDashGo (c :: word) cs

/-- Models Python `package.split('-')`: dash-separated fields, empties kept. -/
def splitDash (s : String) : List String :=
  (splitDashGo [] s.toList).map fun w => String.mk w

/-- Models Python `'-'.join(parts)`. -/
def joinDash : List String → String
  | [] => ""
  | [w] => w
  | w :: ws => w ++ "-" ++ joinDash ws

/-! ### Update Query (`dnf_check_updates`, lines 71–87) -/

/-- The keys of the `updates` dict, in insertion order. -/
def categoryKeys : List String := ["bugfix", "enhancement", "security"]

/-- `updates` dict of `dnf_check_updates`: one package-name list per
category. -/
structure UpdateSet where
  bugfix : List String
  enhancement : List String
  security : List String
deriving Repr, DecidableEq

/-- The dict as initialised at line 81: all three lists empty. -/
def emptyUpdates : UpdateSet := ⟨[], [], []⟩

/-- Line 83: `any(a in line for a in updates.keys())`. -/
def containsKeyword (line : String) : Bool :=
  categoryKeys.any fun a => pyStrIn a line

/-- Line 85: `'-'.join(package.split('-')[:-2])`.
Python `xs[:-2]` is `xs.take (xs.length - 2)`. -/
def package_name (package : String) : String :=
  let parts := splitDash package
  joinDash (parts.take (parts.length - 2))

/-- Line 86: `updates[update_type].append(package_name)`.
`none` models the `KeyError` raised when `update_type` is not a key. -/
def addPackage (updates : UpdateSet) (update_type pname : String) :
    Option UpdateSet :=
  if update_type = "bugfix" then
    some { updates with bugfix := updates.bugfix ++ [pname] }
  else if update_type = "enhancement" then
    some { updates with enhancement := updates.enhancement ++ [pname] }
  else if update_type = "security" then
    some { updates with security := updates.security ++ [pname] }
  else none

/-- One iteration of the loop at lines 82–86.  A line containing no
category keyword is skipped.  Otherwise `update_type, package =
line.split()[1:]` requires exactly three tokens (`none` models the
`ValueError` raised otherwise), and the package name is appended under
`update_type` (`none` models the `KeyError` on an unknown key). -/
def processLine (updates : UpdateSet) (line : String) : Option UpdateSet :=
  if containsKeyword line then
    match pysplit line with
    | [_, update_type, package] =>
        addPackage updates update_type (package_name package)
    | _ => none
  else
    some updates

/-- The `for line in stdout_data` loop: sequential, an exception aborts. -/
def scanLines (updates : UpdateSet) : List String → Option UpdateSet
  | [] => some updates
  | line :: rest =>
    match processLine updates line with
    | none => none
    | some updates2 => scanLines updates2 rest

/-- `dnf_check_updates`, as a function of the decoded stdout lines
(line 80 splits the captured stdout on newlines).  `none` models an
uncaught exception escaping the loop. -/
def dnf_check_updates (stdout_data : List String) : Option UpdateSet :=
  scanLines emptyUpdates stdout_data

/-! ### Counts and the orchestrator decision (`worker_check`, 142–152) -/

/-- Line 147: `sum(len(self.updates[t]) for t in self.updates)`. -/
def totalCount (u : UpdateSet) : Nat :=
  u.bugfix.length + u.enhancement.length + u.security.length

/-- Line 148: `len(self.updates['security'])`. -/
def securityCount (u : UpdateSet) : Nat :=
  u.security.length

/-- The state the orchestrator transitions to when a check completes. -/
inductive CheckOutcome where
  | UpdatesFound
  | UpToDate
deriving Repr, DecidableEq

/-- Lines 149–152: `if (self.updates_nr > 0 and self.all_updates) or
self.security_updates_nr > 0` then `found_updates` else `no_updates`. -/
def worker_check_outcome (u : UpdateSet) (all_updates : Bool) : CheckOutcome :=
  if (decide (totalCount u > 0) && all_updates) ||
      decide (securityCount u > 0) then
    CheckOutcome.UpdatesFound
  else
    CheckOutcome.UpToDate

/-! ### Upgrade Runner (`safe_wrapper` 57–68, `dnf_upgrade` 90–112)

The external probes `command -v screen` / `command -v tmux` are modelled
by two booleans (`true` = the probe exits 0).  The Python `.format`
templates become functions of the two holes `safe_wrapper` and `dnf`. -/

/-- Lines 64–68: probe for `screen`, then `tmux`, else return `""`. -/
def safe_wrapper (screen_installed tmux_installed : Bool) : String :=
  if screen_installed then "screen"
  else if tmux_installed then "tmux new"
  else ""

/-- Line 47. -/
def COMMAND_DNF_UPGRADE : String := "sudo dnf upgrade"

/-- Line 48: `BASH_COMMAND` with both format fields substituted. -/
def BASH_COMMAND (wrapper dnf : String) : String :=
  wrapper ++ " bash -c \x27echo " ++ dnf ++ "; " ++ dnf ++
    "; read -p \"Press ENTER to close window\"\x27"

/-- Line 49. -/
def COMMAND_TERMINAL (wrapper dnf : String) : String :=
  "xfce4-terminal --maximize -x " ++ BASH_COMMAND wrapper dnf

/-- Line 50. -/
def COMMAND_DROPDOWN (wrapper dnf : String) : String :=
  "xfce4-terminal --tab --title Update --drop-down -x " ++
    BASH_COMMAND wrapper dnf

/-- Lines 107–111: the `dnf` string substituted into the template:
`COMMAND_DNF_UPGRADE` alone when `packages is None`, else with
`' '.join(packages)` appended after a space. -/
def upgrade_dnf_string (packages : Option (List String)) : String :=
  match packages with
  | none => COMMAND_DNF_UPGRADE
  | some ps => COMMAND_DNF_UPGRADE ++ " " ++ String.intercalate " " ps

/-- `dnf_upgrade` (lines 90–112): the `concrete_command` string passed to
`call(..., shell=True)`. -/
def dnf_upgrade_command (normal_terminal no_safe : Bool)
    (screen_installed tmux_installed : Bool)
    (packages : Option (List String)) : String :=
  let command := if normal_terminal then COMMAND_TERMINAL else COMMAND_DROPDOWN
  let wrapper := if no_safe then "" else
    safe_wrapper screen_installed tmux_installed
  command wrapper (upgrade_dnf_string packages)

/-! ### Orchestrator state and the dismiss action (lines 115–260)

GTK side effects are modelled as an effect list; the mutable fields of
`Application` that the callbacks touch become a record. -/

/-- Side effects a callback can issue besides mutating `Application`
state: starting the upgrade worker thread (`Thread(target=worker_upgrade)`)
and closing the notification popup. -/
inductive Effect where
  | SpawnUpgradeWorker (all_packages : Bool)
  | CloseNotification
deriving Repr, DecidableEq

/-- The mutable `Application` attributes relevant to the callbacks, plus
the status-icon visibility held by GTK. -/
structure AppState where
  all_updates : Bool
  normal_terminal : Bool
  no_safe : Bool
  icon_visible : Bool
  updates : Option UpdateSet
  updates_nr : Nat
  security_updates_nr : Nat
deriving Repr, DecidableEq

/-- `Application.upgrade` (lines 223–226): hides the icon and starts the
upgrade worker thread. -/
def Application.upgrade (s : AppState) (all_packages : Bool) :
    AppState × List Effect :=
  ({ s with icon_visible := false }, [Effect.SpawnUpgradeWorker all_packages])

/-- `Application.on_notification_dismiss` (lines 258–260):
`self.status_icon.set_visible(False); self.notification.close()`. -/
def Application.on_notification_dismiss (s : AppState) :
    AppState × List Effect :=
  ({ s with icon_visible := false }, [Effect.CloseNotification])

/-! ### Derived predicates used to state the claims -/

/-- Membership in the key set of the `updates` dict. -/
def isCategoryKey (t : String) : Bool :=
  t == "bugfix" || t == "enhancement" || t == "security"

/-- A line on which the loop body raises: it contains a category keyword
but does not split into exactly three tokens (Python `ValueError` from the
unpacking at line 84), or its second token is not a key of the dict
(`KeyError` at line 86). -/
def lineRaises (line : String) : Bool :=
  containsKeyword line &&
    (match pysplit line with
     | [_, update_type, _] => !(isCategoryKey update_type)
     | _ => true)

/-- A line the loop body parses without raising, assuming it contains a
keyword: exactly three tokens whose second is a dict key. -/
def wellFormedLine (line : String) : Bool :=
  match pysplit line with
  | [_, update_type, _] => isCategoryKey update_type
  | _ => false

/-- The second token of a line selected for parsing, when present. -/
def lineCat (line : String) : Option String :=
  if containsKeyword line then
    match pysplit line with
    | [_, update_type, _] => some update_type
    | _ => none
  else none

/-- Number of lines of `ls` whose parsed category token is `c`. -/
def countCat (c : String) (ls : List String) : Nat :=
  (ls.filter fun l => lineCat l == some c).length

/-- Number of lines of `ls` containing a category keyword. -/
def countMatched (ls : List String) : Nat :=
  (ls.filter fun l => containsKeyword l).length

/-- Read `updates[t]` (unknown keys give `[]`; never read below). -/
def catList (u : UpdateSet) (t : String) : List String :=
  if t = "bugfix" then u.bugfix
  else if t = "enhancement" then u.enhancement
  else if t = "security" then u.security
  else []

end UpdateChecker

namespace UpdateChecker

/-! ### Helper lemmas -/

theorem strAppend_assoc (a b c : String) : (a ++ b) ++ c = a ++ (b ++ c) := by
  rcases a with ⟨la⟩; rcases b with ⟨lb⟩; rcases c with ⟨lc⟩
  show String.mk ((la ++ lb) ++ lc) = String.mk (la ++ (lb ++ lc))
  rw [List.append_assoc]

theorem leadsWith_iff (p s : List Char) :
    leadsWith p s = true ↔ ∃ t, s = p ++ t := by
  induction p generalizing s with
  | nil => simp [leadsWith]
  | cons c cs ih =>
    cases s with
    | nil => simp [leadsWith]
    | cons d ds =>
      simp only [leadsWith, Bool.and_eq_true, beq_iff_eq, ih,
        List.cons_append, List.cons.injEq]
      constructor
      · rintro ⟨h1, t, h2⟩
        exact ⟨t, h1.symm, h2⟩
      · rintro ⟨t, h1, h2⟩
        exact ⟨h1.symm, t, h2⟩

theorem occursIn_iff (p s : List Char) :
    occursIn p s = true ↔ ∃ l r, s = l ++ p ++ r := by
  induction s with
  | nil =>
    simp only [occursIn, leadsWith_iff]
    constructor
    · rintro ⟨t, ht⟩
      obtain ⟨hp, -⟩ := List.append_eq_nil.mp ht.symm
      exact ⟨[], [], by simp [hp]⟩
    · rintro ⟨l, r, h⟩
      obtain ⟨h2, -⟩ := List.append_eq_nil.mp h.symm
      obtain ⟨-, hp⟩ := List.append_eq_nil.mp h2
      exact ⟨[], by simp [hp]⟩
  | cons c cs ih =>
    simp only [occursIn, Bool.or_eq_true, leadsWith_iff, ih]
    constructor
    · rintro (⟨t, ht⟩ | ⟨l, r, h⟩)
      · exact ⟨[], t, by simpa using ht⟩
      · exact ⟨c :: l, r, by simp [h]⟩
    · rintro ⟨l, r, h⟩
      cases l with
      | nil => exact Or.inl ⟨r, by simpa using h⟩
      | cons d l2 =>
        rw [List.cons_append, List.cons_append] at h
        injection h with h1 h2
        exact Or.inr ⟨l2, r, h2⟩

theorem containsKeyword_iff (line : String) :
    containsKeyword line = true ↔
      ∃ k, k ∈ categoryKeys ∧ ∃ l r, line.toList = l ++ k.toList ++ r := by
  simp only [containsKeyword, List.any_eq_true, pyStrIn, occursIn_iff]

theorem addPackage_eq_none_iff (u : UpdateSet) (t pn : String) :
    addPackage u t pn = none ↔ isCategoryKey t = false := by
  unfold addPackage
  split_ifs with h1 h2 h3
  · subst h1; simp [isCategoryKey]
  · subst h2; simp [isCategoryKey]
  · subst h3; simp [isCategoryKey]
  · simp [isCategoryKey, beq_iff_eq, h1, h2, h3]

theorem processLine_raises (u : UpdateSet) (line : String)
    (h : lineRaises line = true) : processLine u line = none := by
  unfold lineRaises at h
  rw [Bool.and_eq_true] at h
  obtain ⟨hk, hm⟩ := h
  unfold processLine
  simp only [hk, if_true]
  split
  · rename_i x t p heq
    rw [heq] at hm
    simp only [Bool.not_eq_true'] at hm
    rw [addPackage_eq_none_iff]
    exact hm
  · rfl

theorem processLine_skip (u : UpdateSet) (line : String)
    (h : containsKeyword line = false) : processLine u line = some u := by
  unfold processLine
  simp [h]

theorem scanLines_none_of_mem (ls : List String) (l : String)
    (h2 : lineRaises l = true) :
    l ∈ ls → ∀ u : UpdateSet, scanLines u ls = none := by
  induction ls with
  | nil => intro h1; cases h1
  | cons a as ih =>
    intro h1 u
    rcases List.mem_cons.mp h1 with rfl | hmem
    · simp only [scanLines, processLine_raises u l h2]
    · simp only [scanLines]
      cases hp : processLine u a with
      | none => rfl
      | some u2 => exact ih hmem u2

theorem pysplit_of_wellFormed (a : String) (hw : wellFormedLine a = true) :
    ∃ x t p, pysplit a = [x, t, p] ∧ isCategoryKey t = true := by
  unfold wellFormedLine at hw
  rcases h : pysplit a with _ | ⟨x, ll⟩
  · rw [h] at hw; simp at hw
  rcases ll with _ | ⟨t, ll2⟩
  · rw [h] at hw; simp at hw
  rcases ll2 with _ | ⟨p, ll3⟩
  · rw [h] at hw; simp at hw
  rcases ll3 with _ | ⟨q, ll4⟩
  · rw [h] at hw; exact ⟨x, t, p, rfl, by simpa using hw⟩
  · rw [h] at hw; simp at hw

theorem isCategoryKey_cases (t : String) (h : isCategoryKey t = true) :
    t = "bugfix" ∨ t = "enhancement" ∨ t = "security" := by
  unfold isCategoryKey at h
  simpa [Bool.or_eq_true, beq_iff_eq, or_assoc] using h

theorem lineCat_of_parts (a x t p : String) (hk : containsKeyword a = true)
    (hsp : pysplit a = [x, t, p]) : lineCat a = some t := by
  unfold lineCat
  rw [hsp]
  simp [hk]

theorem lineCat_of_skip (a : String) (hk : containsKeyword a = false) :
    lineCat a = none := by
  unfold lineCat
  simp [hk]

theorem processLine_parts (u : UpdateSet) (a x t p : String)
    (hk : containsKeyword a = true) (hsp : pysplit a = [x, t, p]) :
    processLine u a = addPackage u t (package_name p) := by
  unfold processLine
  rw [hsp]
  simp [hk]

theorem countCat_cons (c a : String) (as : List String) :
    countCat c (a :: as) =
      (if lineCat a = some c then 1 else 0) + countCat c as := by
  unfold countCat
  rw [List.filter_cons]
  by_cases h : lineCat a = some c
  · simp [h, Nat.add_comm]
  · simp [h]

theorem countMatched_cons (a : String) (as : List String) :
    countMatched (a :: as) =
      (if containsKeyword a = true then 1 else 0) + countMatched as := by
  unfold countMatched
  rw [List.filter_cons]
  by_cases h : containsKeyword a = true
  · simp [h, Nat.add_comm]
  · simp [h]

theorem processLine_step (u : UpdateSet) (a : String)
    (hk : containsKeyword a = true) (hw : wellFormedLine a = true) :
    ∃ u2, processLine u a = some u2 ∧
      u2.bugfix.length =
        u.bugfix.length + (if lineCat a = some "bugfix" then 1 else 0) ∧
      u2.enhancement.length =
        u.enhancement.length +
          (if lineCat a = some "enhancement" then 1 else 0) ∧
      u2.security.length =
        u.security.length + (if lineCat a = some "security" then 1 else 0) := by
  obtain ⟨x, t, p, hsp, hcat⟩ := pysplit_of_wellFormed a hw
  have hlc := lineCat_of_parts a x t p hk hsp
  have hpl := processLine_parts u a x t p hk hsp
  rcases isCategoryKey_cases t hcat with ht | ht | ht
  · subst ht
    refine ⟨{ u with bugfix := u.bugfix ++ [package_name p] }, ?_, ?_, ?_, ?_⟩
    · rw [hpl]; unfold addPackage; rw [if_pos rfl]
    · simp [hlc]
    · simp [hlc]
    · simp [hlc]
  · subst ht
    refine ⟨{ u with enhancement := u.enhancement ++ [package_name p] },
      ?_, ?_, ?_, ?_⟩
    · rw [hpl]; unfold addPackage
      rw [if_neg (by decide), if_pos rfl]
    · simp [hlc]
    · simp [hlc]
    · simp [hlc]
  · subst ht
    refine ⟨{ u with security := u.security ++ [package_name p] },
      ?_, ?_, ?_, ?_⟩
    · rw [hpl]; unfold addPackage
      rw [if_neg (by decide), if_neg (by decide), if_pos rfl]
    · simp [hlc]
    · simp [hlc]
    · simp [hlc]

theorem scanLines_counts (ls : List String) :
    ∀ u0 : UpdateSet,
      (∀ l ∈ ls, containsKeyword l = true → wellFormedLine l = true) →
      ∃ u : UpdateSet, scanLines u0 ls = some u ∧
        u.bugfix.length = u0.bugfix.length + countCat "bugfix" ls ∧
        u.enhancement.length =
          u0.enhancement.length + countCat "enhancement" ls ∧
        u.security.length = u0.security.length + countCat "security" ls := by
  induction ls with
  | nil =>
    intro u0 _
    exact ⟨u0, rfl, by simp [countCat], by simp [countCat], by simp [countCat]⟩
  | cons a as ih =>
    intro u0 h
    by_cases hk : containsKeyword a = true
    · obtain ⟨u1, hpa, hb, he, hs⟩ :=
        processLine_step u0 a hk (h a (List.mem_cons_self a as) hk)
      obtain ⟨u, hscan, hb2, he2, hs2⟩ :=
        ih u1 (fun l hl => h l (List.mem_cons_of_mem a hl))
      refine ⟨u, ?_, ?_, ?_, ?_⟩
      · simp only [scanLines, hpa]
        exact hscan
      · rw [countCat_cons]; omega
      · rw [countCat_cons]; omega
      · rw [countCat_cons]; omega
    · rw [Bool.not_eq_true] at hk
      have hpa := processLine_skip u0 a hk
      have hlc := lineCat_of_skip a hk
      obtain ⟨u, hscan, hb2, he2, hs2⟩ :=
        ih u0 (fun l hl => h l (List.mem_cons_of_mem a hl))
      refine ⟨u, ?_, ?_, ?_, ?_⟩
      · simp only [scanLines, hpa]
        exact hscan
      · rw [countCat_cons]; simp [hlc]; omega
      · rw [countCat_cons]; simp [hlc]; omega
      · rw [countCat_cons]; simp [hlc]; omega

theorem lineCat_counts_one (a : String) (hk : containsKeyword a = true)
    (hw : wellFormedLine a = true) :
    (if lineCat a = some "bugfix" then 1 else 0) +
      (if lineCat a = some "enhancement" then 1 else 0) +
      (if lineCat a = some "security" then 1 else 0) = 1 := by
  obtain ⟨x, t, p, hsp, hcat⟩ := pysplit_of_wellFormed a hw
  have hlc := lineCat_of_parts a x t p hk hsp
  rcases isCategoryKey_cases t hcat with ht | ht | ht <;> subst ht <;>
    simp [hlc]

theorem countMatched_split (ls : List String)
    (h : ∀ l ∈ ls, containsKeyword l = true → wellFormedLine l = true) :
    countMatched ls = countCat "bugfix" ls + countCat "enhancement" ls +
      countCat "security" ls := by
  induction ls with
  | nil => simp [countMatched, countCat]
  | cons a as ih =>
    have ih2 := ih (fun l hl => h l (List.mem_cons_of_mem a hl))
    by_cases hk : containsKeyword a = true
    · have h1 := lineCat_counts_one a hk (h a (List.mem_cons_self a as) hk)
      rw [countMatched_cons, countCat_cons, countCat_cons, countCat_cons,
        if_pos hk]
      omega
    · rw [Bool.not_eq_true] at hk
      have hlc := lineCat_of_skip a hk
      rw [countMatched_cons, countCat_cons, countCat_cons, countCat_cons]
      simp [hlc, hk]
      omega

theorem dropLast_twice {α : Type} (xs : List α) :
    xs.dropLast.dropLast = xs.take (xs.length - 2) := by
  rw [List.dropLast_eq_take, List.dropLast_eq_take, List.take_take,
    List.length_take]
  congr 1
  omega

theorem addPackage_mem (u u2 : UpdateSet) (t pn : String)
    (h : addPackage u t pn = some u2) : pn ∈ catList u2 t := by
  unfold addPackage at h
  split_ifs at h with h1 h2 h3
  · cases h; subst h1; simp [catList]
  · cases h; subst h2; simp [catList]
  · cases h; subst h3; simp [catList]

theorem addPackage_mono (u u2 : UpdateSet) (t2 pn x t : String)
    (h : addPackage u t2 pn = some u2) (hx : x ∈ catList u t) :
    x ∈ catList u2 t := by
  unfold addPackage at h
  split_ifs at h with h1 h2 h3
  · cases h
    unfold catList at hx ⊢
    split_ifs at hx ⊢ <;> simp_all [List.mem_append]
  · cases h
    unfold catList at hx ⊢
    split_ifs at hx ⊢ <;> simp_all [List.mem_append]
  · cases h
    unfold catList at hx ⊢
    split_ifs at hx ⊢ <;> simp_all [List.mem_append]

theorem processLine_mono (u u2 : UpdateSet) (a x t : String)
    (h : processLine u a = some u2) (hx : x ∈ catList u t) :
    x ∈ catList u2 t := by
  unfold processLine at h
  split at h
  · split at h
    · exact addPackage_mono _ _ _ _ _ _ h hx
    · exact Option.noConfusion h
  · cases h; exact hx

theorem scanLines_mono (ls : List String) :
    ∀ (u v : UpdateSet) (x t : String), scanLines u ls = some v →
      x ∈ catList u t → x ∈ catList v t := by
  induction ls with
  | nil =>
    intro u v x t h hx
    simp only [scanLines] at h
    cases h; exact hx
  | cons a as ih =>
    intro u v x t h hx
    simp only [scanLines] at h
    cases hp : processLine u a with
    | none => rw [hp] at h; exact Option.noConfusion h
    | some u2 =>
      rw [hp] at h
      exact ih u2 v x t h (processLine_mono u u2 a x t hp hx)

theorem scanLines_adds (ls : List String) :
    ∀ (u v : UpdateSet) (l x t p : String), l ∈ ls →
      containsKeyword l = true → pysplit l = [x, t, p] →
      scanLines u ls = some v → package_name p ∈ catList v t := by
  induction ls with
  | nil =>
    intro u v l x t p hmem
    cases hmem
  | cons a as ih =>
    intro u v l x t p hmem hk hsp hscan
    simp only [scanLines] at hscan
    cases hp : processLine u a with
    | none => rw [hp] at hscan; exact Option.noConfusion hscan
    | some u2 =>
      rw [hp] at hscan
      rcases List.mem_cons.mp hmem with rfl | hmem2
      · have hadd : addPackage u t (package_name p) = some u2 :=
          (processLine_parts u l x t p hk hsp) ▸ hp
        exact scanLines_mono as u2 v (package_name p) t hscan
          (addPackage_mem u u2 t (package_name p) hadd)
      · exact ih u2 v l x t p hmem2 hk hsp hscan

/-! ### Claim theorems -/

/-- Counterexample to C1: the malformed line `"security"` (keyword
present, tokens missing) raises and aborts the scan, so the following
well-formed line is never parsed and no result at all is produced —
the line is not "simply excluded". -/
theorem malformed_line_aborts_scan_counterexample :
    dnf_check_updates
      ["security", "FEDORA-1 security curl-7.61.1-1.fc30"] = none := by
  decide

/-- C1 (amended): `dnf_check_updates` raises on any malformed matched
line — one containing a category keyword that does not split into exactly
three whitespace tokens, or whose second token is not a known category —
and the raise aborts the whole scan, yielding no result; only lines
containing no category keyword at all are excluded without aborting. -/
theorem check_updates_malformed_matched_line_raises :
    (∀ (ls : List String) (l : String), l ∈ ls → lineRaises l = true →
      dnf_check_updates ls = none) ∧
    (∀ (u : UpdateSet) (l : String), containsKeyword l = false →
      processLine u l = some u) := by
  constructor
  · intro ls l h1 h2
    exact scanLines_none_of_mem ls l h2 h1 emptyUpdates
  · intro u l h
    exact processLine_skip u l h

/-- Witness for C1 (amended) at concrete inputs. -/
theorem check_updates_malformed_matched_line_raises_witness :
    dnf_check_updates ["security"] = none ∧
    processLine emptyUpdates "Last metadata expiration check" =
      some emptyUpdates :=
  ⟨check_updates_malformed_matched_line_raises.1 ["security"] "security"
      (by decide) (by decide),
    check_updates_malformed_matched_line_raises.2 emptyUpdates
      "Last metadata expiration check" (by decide)⟩

/-- Counterexample to C2: on the exact two-line input of the claim the
parse raises (each line has only two whitespace tokens, so the unpacking
`update_type, package = line.split()[1:]` fails), so no UpdateSet is
returned at all, let alone the claimed one. -/
theorem check_updates_two_token_lines_counterexample :
    dnf_check_updates
      ["security curl-7.61.1-1.fc30", "bugfix vim-8.1-1.fc30"] = none := by
  decide

/-- C2 (amended): with the leading advisory token that
`dnf updateinfo list` prints on each line, the two-line listing parses to
bugfix = ["vim"], enhancement = [], security = ["curl"], with total
count 2 and security count 1.  (On the claim's advisory-less two-token
lines the parse raises; see the counterexample.) -/
theorem check_updates_advisory_example :
    dnf_check_updates
        ["FEDORA-1 security curl-7.61.1-1.fc30",
          "FEDORA-2 bugfix vim-8.1-1.fc30"] =
      some ⟨["vim"], [], ["curl"]⟩ ∧
    totalCount ⟨["vim"], [], ["curl"]⟩ = 2 ∧
    securityCount ⟨["vim"], [], ["curl"]⟩ = 1 := by
  decide

/-- C3: after a completed check the orchestrator calls `found_updates`
(moves to UpdatesFound) exactly when `security_count > 0` or
(`total_count > 0` and the all-updates flag is enabled), and calls
`no_updates` (moves to UpToDate) exactly otherwise — stated positively:
when `security_count = 0` and (`total_count = 0` or the flag is off). -/
theorem worker_check_decision (u : UpdateSet) (a : Bool) :
    (worker_check_outcome u a = CheckOutcome.UpdatesFound ↔
      securityCount u > 0 ∨ (totalCount u > 0 ∧ a = true)) ∧
    (worker_check_outcome u a = CheckOutcome.UpToDate ↔
      securityCount u = 0 ∧ (totalCount u = 0 ∨ a = false)) := by
  unfold worker_check_outcome
  rcases Nat.eq_zero_or_pos (securityCount u) with hs | hs <;>
    rcases Nat.eq_zero_or_pos (totalCount u) with ht | ht <;>
    cases a <;>
    simp [hs, ht] <;>
    omega

/-- C4: on listing output where every keyword-matched line is well-formed
(exactly three tokens, known category in second position),
`check_updates` succeeds and returns an UpdateSet whose total package
count equals the number of matched lines and whose per-category list
lengths equal the number of lines carrying each category. -/
theorem check_updates_counts (ls : List String)
    (h : ∀ l ∈ ls, containsKeyword l = true → wellFormedLine l = true) :
    ∃ u : UpdateSet, dnf_check_updates ls = some u ∧
      totalCount u = countMatched ls ∧
      u.bugfix.length = countCat "bugfix" ls ∧
      u.enhancement.length = countCat "enhancement" ls ∧
      u.security.length = countCat "security" ls := by
  obtain ⟨u, hscan, hb, he, hs⟩ := scanLines_counts ls emptyUpdates h
  have hm := countMatched_split ls h
  simp only [emptyUpdates, List.length_nil] at hb he hs
  refine ⟨u, hscan, ?_, ?_, ?_, ?_⟩
  · unfold totalCount; omega
  · omega
  · omega
  · omega

/-- Witness for C4 at a concrete two-line listing. -/
theorem check_updates_counts_witness :
    ∃ u : UpdateSet,
      dnf_check_updates ["FEDORA-10 security curl-7.61.1-1.fc30",
        "FEDORA-11 enhancement tmux-2.8-1.fc30"] = some u ∧
      totalCount u = countMatched ["FEDORA-10 security curl-7.61.1-1.fc30",
        "FEDORA-11 enhancement tmux-2.8-1.fc30"] ∧
      u.bugfix.length = countCat "bugfix"
        ["FEDORA-10 security curl-7.61.1-1.fc30",
          "FEDORA-11 enhancement tmux-2.8-1.fc30"] ∧
      u.enhancement.length = countCat "enhancement"
        ["FEDORA-10 security curl-7.61.1-1.fc30",
          "FEDORA-11 enhancement tmux-2.8-1.fc30"] ∧
      u.security.length = countCat "security"
        ["FEDORA-10 security curl-7.61.1-1.fc30",
          "FEDORA-11 enhancement tmux-2.8-1.fc30"] :=
  check_updates_counts
    ["FEDORA-10 security curl-7.61.1-1.fc30",
      "FEDORA-11 enhancement tmux-2.8-1.fc30"] (by decide)

/-- C5: every package name stored by `check_updates` for a matched line
with tokens `[advisory, type, package_nvr]` is the `package_nvr` token
with its last two dash-separated segments (version and release) removed
and the remaining segments rejoined with dashes. -/
theorem stored_package_name (ls : List String) (l x t p : String)
    (u : UpdateSet) (h1 : l ∈ ls) (h2 : containsKeyword l = true)
    (h3 : pysplit l = [x, t, p]) (h4 : dnf_check_updates ls = some u) :
    joinDash ((splitDash p).dropLast.dropLast) ∈ catList u t := by
  have hmem := scanLines_adds ls emptyUpdates u l x t p h1 h2 h3 h4
  rw [dropLast_twice]
  simpa [package_name] using hmem

/-- Witness for C5 at a concrete one-line listing. -/
theorem stored_package_name_witness :
    joinDash ((splitDash "curl-7.61.1-1.fc30").dropLast.dropLast) ∈
      catList ⟨[], [], ["curl"]⟩ "security" :=
  stored_package_name ["FEDORA-1 security curl-7.61.1-1.fc30"]
    "FEDORA-1 security curl-7.61.1-1.fc30" "FEDORA-1" "security"
    "curl-7.61.1-1.fc30" ⟨[], [], ["curl"]⟩ (by decide) (by decide)
    (by decide) (by decide)

/-- Any terminal template built around `BASH_COMMAND` contains the
substituted dnf string as a contiguous substring (helper for C6). -/
theorem bash_command_embeds_dnf (pre w dnf : String) :
    ∃ a b : String, pre ++ BASH_COMMAND w dnf = a ++ dnf ++ b := by
  refine ⟨pre ++ (w ++ " bash -c \x27echo "),
    "; " ++ dnf ++ "; read -p \"Press ENTER to close window\"\x27", ?_⟩
  unfold BASH_COMMAND
  simp only [strAppend_assoc]

/-- C6: the upgrade string substituted into the spawned terminal command
is exactly `sudo dnf upgrade` followed by the space-separated package
list when a package scope is given (`sudo dnf upgrade curl` for
`["curl"]`), and exactly `sudo dnf upgrade` with no package arguments
when the scope is all packages; in both cases the full terminal command
contains that string contiguously. -/
theorem upgrade_command_string (normal_terminal no_safe : Bool)
    (screen_installed tmux_installed : Bool) :
    upgrade_dnf_string (some ["curl"]) = "sudo dnf upgrade curl" ∧
    upgrade_dnf_string none = "sudo dnf upgrade" ∧
    (∃ a b : String,
      dnf_upgrade_command normal_terminal no_safe screen_installed
        tmux_installed (some ["curl"]) = a ++ "sudo dnf upgrade curl" ++ b) ∧
    (∃ a b : String,
      dnf_upgrade_command normal_terminal no_safe screen_installed
        tmux_installed none = a ++ "sudo dnf upgrade" ++ b) := by
  have h1 : upgrade_dnf_string (some ["curl"]) = "sudo dnf upgrade curl" := by
    decide
  have h2 : upgrade_dnf_string none = "sudo dnf upgrade" := rfl
  refine ⟨h1, h2, ?_, ?_⟩
  · cases normal_terminal <;>
      simp only [dnf_upgrade_command, COMMAND_TERMINAL, COMMAND_DROPDOWN,
        h1, Bool.false_eq_true, if_false, if_true] <;>
      exact bash_command_embeds_dnf _ _ _
  · cases normal_terminal <;>
      simp only [dnf_upgrade_command, COMMAND_TERMINAL, COMMAND_DROPDOWN,
        h2, Bool.false_eq_true, if_false, if_true] <;>
      exact bash_command_embeds_dnf _ _ _

/-- C7: `safe_wrapper` probes for screen first and tmux second and
returns the wrapper of the first probe that succeeds: `screen` whenever
the screen probe succeeds (regardless of tmux), otherwise `tmux new`
when the tmux probe succeeds, otherwise the empty wrapper. -/
theorem safe_wrapper_preference (screen_installed tmux_installed : Bool) :
    (screen_installed = true →
      safe_wrapper screen_installed tmux_installed = "screen") ∧
    (screen_installed = false → tmux_installed = true →
      safe_wrapper screen_installed tmux_installed = "tmux new") ∧
    (screen_installed = false → tmux_installed = false →
      safe_wrapper screen_installed tmux_installed = "") := by
  refine ⟨?_, ?_, ?_⟩
  · intro h; simp [safe_wrapper, h]
  · intro h1 h2; simp [safe_wrapper, h1, h2]
  · intro h1 h2; simp [safe_wrapper, h1, h2]

/-- Witness for C7 at all of its concrete probe outcomes. -/
theorem safe_wrapper_preference_witness :
    safe_wrapper true true = "screen" ∧
    safe_wrapper false true = "tmux new" ∧
    safe_wrapper false false = "" :=
  ⟨(safe_wrapper_preference true true).1 rfl,
    (safe_wrapper_preference false true).2.1 rfl rfl,
    (safe_wrapper_preference false false).2.2 rfl rfl⟩

/-- Counterexample to C8: this single-line output (unknown category
token, keyword occurring inside the package field) makes
`dnf_check_updates` raise — no empty or partial UpdateSet is produced,
so nothing is treated as UpToDate for this run. -/
theorem unparseable_output_raises_counterexample :
    dnf_check_updates ["FEDORA-9 newcategory libsecurity-1-1.fc30"] =
      none := by
  decide

/-- C8 (amended): when the listing command fails and produces empty
output, `check_updates` degrades to the empty UpdateSet, which the
orchestrator treats as UpToDate; but non-empty unparseable output that
contains a category keyword makes `check_updates` raise instead of
degrading, producing no UpdateSet at all for that run. -/
theorem listing_failure_degradation :
    dnf_check_updates [""] = some emptyUpdates ∧
    (∀ a : Bool,
      worker_check_outcome emptyUpdates a = CheckOutcome.UpToDate) ∧
    dnf_check_updates ["FEDORA-9 badtype libenhancement-1-1.fc30"] =
      none := by
  refine ⟨by decide, ?_, by decide⟩
  intro a
  cases a <;> decide

/-- C9: the dismiss callback hides the status icon and emits only a
close-notification effect — in particular it never spawns the upgrade
worker — while the stored UpdateSet, both counters and every
configuration flag are left unchanged. -/
theorem dismiss_hides_icon_only (s : AppState) :
    ((Application.on_notification_dismiss s).1.icon_visible = false) ∧
    ((Application.on_notification_dismiss s).2 =
      [Effect.CloseNotification]) ∧
    ((Application.on_notification_dismiss s).1.updates = s.updates) ∧
    ((Application.on_notification_dismiss s).1.updates_nr =
      s.updates_nr) ∧
    ((Application.on_notification_dismiss s).1.security_updates_nr =
      s.security_updates_nr) ∧
    ((Application.on_notification_dismiss s).1.all_updates =
      s.all_updates) ∧
    ((Application.on_notification_dismiss s).1.normal_terminal =
      s.normal_terminal) ∧
    ((Application.on_notification_dismiss s).1.no_safe = s.no_safe) :=
  ⟨rfl, rfl, rfl, rfl, rfl, rfl, rfl, rfl⟩

/-- C10: a listing line is selected for parsing exactly when one of the
strings "bugfix", "enhancement", "security" occurs anywhere in it as a
substring; a concrete line whose keyword occurs only inside another
token (never as a standalone token) is still selected and handed to the
token parser — here it raises — instead of being ignored. -/
theorem keyword_substring_selection :
    (∀ line : String, containsKeyword line = true ↔
      ∃ k, k ∈ categoryKeys ∧
        ∃ l r, line.toList = l ++ k.toList ++ r) ∧
    containsKeyword "FEDORA-9 updated libsecurity-1-1.fc30" = true ∧
    ((pysplit "FEDORA-9 updated libsecurity-1-1.fc30").all
      fun w => !(categoryKeys.contains w)) = true ∧
    processLine emptyUpdates "FEDORA-9 updated libsecurity-1-1.fc30" =
      none :=
  ⟨containsKeyword_iff, by decide, by decide, by decide⟩

end UpdateChecker
